import Mathlib

/-!
Verification of the on-disk SQLite-format reader in `app/` (main.py, models.py,
pages.py, record_parser.py).  The Python sources are shallowly embedded: the
database file is a list of byte values, Python file objects become explicit
positions into that list, and every operation that can raise becomes a value in
`Except DbError`.  Definitions follow the Python sources line by line; the two
pieces of the package that are imported by the sources but whose defining file
is absent (`varint_parser.parse_varint` and the `Index` class of `app.models`)
are modelled from the specification and carry a `Modelled from the spec` note.
-/

/-- Error values standing for the Python exceptions the sources can raise. -/
inductive DbError where
  /-- models.py `PageHeader.parse_from`: page type outside 5 and 13.  Python
  raises a `KeyError` while even formatting the message, because
  `page_type_description` looks the type up in a two-entry dict. -/
  | invalidPageType (t : Nat)
  /-- Attribute lookups that cannot succeed (e.g. `int.decode`, or the index
  page properties that `models.PageHeader` does not define). -/
  | attributeError
  /-- Dict lookup of an absent key (`Record.__getitem__`). -/
  | keyError
  /-- Python `IndexError` from list indexing (e.g. `split("(")[1]`). -/
  | indexError
  /-- pages.py: `raise Exception("Overflow page!")`. -/
  | overflowPage
  /-- record_parser.py: `raise Exception(f"Unhandled serial_type ...")`. -/
  | unhandledSerialType (t : Nat)
  /-- Varint codec hit end of file (spec section 4.1). -/
  | prematureEOF
  /-- bytes.decode with data that is not valid UTF-8. -/
  | unicodeDecodeError
  /-- Python RecursionError: models exhaustion of the traversal fuel. -/
  | recursionLimit
  deriving DecidableEq, Repr

/-- The database file: a sequence of byte values. -/
abbrev DbFile := List Nat

/-- Python `file.read(n)` at position `pos`: returns up to `n` bytes (fewer at
end of file). -/
def pyRead (file : DbFile) (pos n : Nat) : List Nat :=
  (file.drop pos).take n

/-- Python `file.read(n)` together with the position after the read (the
position advances by the number of bytes actually read). -/
def readAdv (file : DbFile) (pos n : Nat) : List Nat × Nat :=
  let bs := pyRead file pos n
  (bs, pos + bs.length)

/-- Python `int.from_bytes(bs, "big")` (unsigned, the default). -/
def intFromBytesBE (bs : List Nat) : Nat :=
  bs.foldl (fun a b => a * 256 + b) 0

/-- Helper for `parse_varint`: `k` continuation bytes may still be consumed
before the ninth, data-only byte.  The accumulator holds the bits read so
far. -/
def parseVarintAux (file : DbFile) : Nat → Nat → Nat → Except DbError (Nat × Nat)
  | 0, pos, acc =>
    match file.drop pos with
    | [] => .error .prematureEOF
    | b :: _ => .ok (acc * 256 + b, pos + 1)
  | k + 1, pos, acc =>
    match file.drop pos with
    | [] => .error .prematureEOF
    | b :: _ =>
      if b < 128 then .ok (acc * 128 + b, pos + 1)
      else parseVarintAux file k (pos + 1) (acc * 128 + (b % 128))

/-- Modelled from the spec: `varint_parser.parse_varint` is imported by every
source file but `app/varint_parser.py` is not in the tree.  Spec section 4.1:
read 1 to 9 bytes; for bytes 1 through 8 the high bit is a continuation flag
and the low 7 bits accumulate big-endian; if an 8th continuation byte was
consumed the 9th byte contributes all 8 bits; premature end-of-file is an
error.  Returns the value and the position after it. -/
def parse_varint (file : DbFile) (pos : Nat) : Except DbError (Nat × Nat) :=
  parseVarintAux file 8 pos 0

/-- Is `b` a UTF-8 continuation byte? -/
def isContByte (b : Nat) : Bool := 128 ≤ b && b < 192

/-- Strict UTF-8 decoding of a byte list into characters, rejecting stray
continuation bytes, truncated sequences, overlong forms, surrogates and
values beyond U+10FFFF, as Python's `bytes.decode("utf-8")` does. -/
def decodeUtf8Chars : List Nat → Except DbError (List Char)
  | [] => .ok []
  | b :: rest =>
    if b < 128 then do
      let cs ← decodeUtf8Chars rest
      .ok (Char.ofNat b :: cs)
    else if b < 194 then .error .unicodeDecodeError
    else if b < 224 then
      match rest with
      | c1 :: rest' =>
        if isContByte c1 then do
          let cs ← decodeUtf8Chars rest'
          .ok (Char.ofNat ((b - 192) * 64 + (c1 - 128)) :: cs)
        else .error .unicodeDecodeError
      | [] => .error .unicodeDecodeError
    else if b < 240 then
      match rest with
      | c1 :: c2 :: rest' =>
        if isContByte c1 && isContByte c2 then
          let cp := (b - 224) * 4096 + (c1 - 128) * 64 + (c2 - 128)
          if 2048 ≤ cp && !(55296 ≤ cp && cp ≤ 57343) then do
            let cs ← decodeUtf8Chars rest'
            .ok (Char.ofNat cp :: cs)
          else .error .unicodeDecodeError
        else .error .unicodeDecodeError
      | _ => .error .unicodeDecodeError
    else if b < 245 then
      match rest with
      | c1 :: c2 :: c3 :: rest' =>
        if isContByte c1 && isContByte c2 && isContByte c3 then
          let cp := (b - 240) * 262144 + (c1 - 128) * 4096 + (c2 - 128) * 64 + (c3 - 128)
          if 65536 ≤ cp && cp ≤ 1114111 then do
            let cs ← decodeUtf8Chars rest'
            .ok (Char.ofNat cp :: cs)
          else .error .unicodeDecodeError
        else .error .unicodeDecodeError
      | _ => .error .unicodeDecodeError
    else .error .unicodeDecodeError

/-- Python `bs.decode("utf-8")`. -/
def decodeUtf8 (bs : List Nat) : Except DbError String :=
  (decodeUtf8Chars bs).map fun cs => ⟨cs⟩

/-- ASCII bytes of a string literal (used for Python byte-string literals such
as `b"sqlite_sequence"`; all literals in the sources are ASCII). -/
def strBytes (s : String) : List Nat := s.toList.map Char.toNat

/-- Python `str.split(sep)` for a one-character separator, on char lists:
always returns at least one (possibly empty) piece. -/
def splitChar (sep : Char) : List Char → List (List Char)
  | [] => [[]]
  | c :: cs =>
    if c = sep then [] :: splitChar sep cs
    else
      match splitChar sep cs with
      | [] => [[c]]
      | g :: gs => (c :: g) :: gs

/-- Python `str.strip()` on char lists (leading and trailing whitespace
removed). -/
def stripL (l : List Char) : List Char :=
  ((l.dropWhile Char.isWhitespace).reverse.dropWhile Char.isWhitespace).reverse

theorem dropWhile_length_le {α : Type} (p : α → Bool) (l : List α) :
    (l.dropWhile p).length ≤ l.length := by
  induction l with
  | nil => simp [List.dropWhile]
  | cons a l ih =>
    simp only [List.dropWhile]
    split
    · exact Nat.le_succ_of_le ih
    · simp

/-- Helper for `pySplitWs`: the accumulator holds the current word,
reversed. -/
def pySplitWsAux : List Char → List Char → List (List Char)
  | [], acc => if acc = [] then [] else [acc.reverse]
  | c :: cs, acc =>
    if Char.isWhitespace c then
      if acc = [] then pySplitWsAux cs []
      else acc.reverse :: pySplitWsAux cs []
    else pySplitWsAux cs (c :: acc)

/-- Python `str.split()` with no arguments: split on whitespace runs, dropping
empty pieces. -/
def pySplitWs (l : List Char) : List (List Char) := pySplitWsAux l []

/-- Python `needle in hay` for strings (substring containment). -/
def containsSub (needle : List Char) : List Char → Bool
  | [] => needle.isEmpty
  | c :: cs => List.isPrefixOf needle (c :: cs) || containsSub needle cs

/-- Is an `Except` an error? -/
def isErrB {ε α : Type} : Except ε α → Bool
  | .error _ => true
  | .ok _ => false

/-- Decoded column values as Python produces them: `None`, `int`, or `bytes`
(serial-type text and blob values are both returned as raw bytes). -/
inductive Value where
  | null
  | int (i : Int)
  | bytes (bs : List Nat)
  deriving DecidableEq, Repr

/-- models.py `Column`. -/
structure Column where
  name : String
  type : String
  is_primary_key : Bool
  deriving DecidableEq, Repr

/-- models.py `Table` (the fields; `columns` is defined below). -/
structure Table where
  name : String
  root_page : Nat
  create_table_sql : String
  deriving DecidableEq, Repr

/-- One element of the `Table.columns` list comprehension:
`column_definition.strip().split(" ", 1)` gives the name and declared type
(an `IndexError` when there is no space), and the case-insensitive substring
test `'primary key' in column_definition.lower()` marks the primary key. -/
def columnFromDef (d : List Char) : Except DbError Column :=
  let d := stripL d
  match d.dropWhile (fun c => !(c = ' ')) with
  | [] => .error .indexError
  | _ :: ty =>
    .ok ⟨⟨d.takeWhile (fun c => !(c = ' '))⟩, ⟨ty⟩,
      containsSub "primary key".toList (d.map Char.toLower)⟩

/-- The list comprehension over column definitions, left to right. -/
def columnsList : List (List Char) → Except DbError (List Column)
  | [] => .ok []
  | d :: ds => do
    let c ← columnFromDef d
    let cs ← columnsList ds
    .ok (c :: cs)

/-- models.py `Table.columns`: take `create_table_sql.strip().split("(")[1]`
(an `IndexError` when there is no `(`), cut it at the first `)` with
`.split(")")[0]`, normalize whitespace via `" ".join(sql.split())`, split the
result on every `","`, and build one `Column` per piece. -/
def Table.columns (t : Table) : Except DbError (List Column) :=
  let s := stripL t.create_table_sql.toList
  match (splitChar '(' s).get? 1 with
  | none => .error .indexError
  | some seg =>
    let body := (splitChar ')' seg).headD []
    columnsList ((splitChar ',' (List.intercalate [' '] (pySplitWs body))).map stripL)

/-- A Python dict insertion: replacing an existing key keeps its position,
a new key is appended. -/
def dictInsert (l : List (String × Value)) (k : String) (v : Value) :
    List (String × Value) :=
  if (l.map Prod.fst).contains k then
    l.map fun p => if p.1 = k then (k, v) else p
  else l ++ [(k, v)]

/-- First-match association lookup (agrees with Python dict lookup because
`dictInsert` keeps keys unique). -/
def lookupVal (l : List (String × Value)) (k : String) : Option Value :=
  match l with
  | [] => none
  | p :: ps => if p.1 = k then some p.2 else lookupVal ps k

/-- models.py `Record`.  The snapshot of models.py lacks the `rowid` field,
but record_parser.py constructs `Record(rowid=..., column_names_to_values=...)`
and spec section 3 says a record is the mapping "plus its rowid"; the field is
therefore included (Modelled from the spec for the missing field). -/
structure Record where
  rowid : Nat
  column_names_to_values : List (String × Value)
  deriving DecidableEq, Repr

/-- models.py `Record.__getitem__`: a plain dict lookup,
`self.column_names_to_values[item]` (raises `KeyError` when absent). -/
def Record.getitem (r : Record) (item : String) : Except DbError Value :=
  match lookupVal r.column_names_to_values item with
  | some v => .ok v
  | none => .error .keyError

/-- record_parser.py `parse_record_value`: dispatch on the serial type, in the
source's branch order.  Note the integer branches use `int.from_bytes(...,
"big")`, which is unsigned (Python's default), despite the comments that call
them twos-complement. -/
def parse_record_value (file : DbFile) (pos : Nat) (serial_type : Nat) :
    Except DbError (Value × Nat) :=
  if 13 ≤ serial_type ∧ serial_type % 2 = 1 then
    let (bs, pos') := readAdv file pos ((serial_type - 13) / 2)
    .ok (.bytes bs, pos')
  else if 12 ≤ serial_type ∧ serial_type % 2 = 0 then
    let (bs, pos') := readAdv file pos ((serial_type - 12) / 2)
    .ok (.bytes bs, pos')
  else if serial_type = 9 then .ok (.int 1, pos)
  else if serial_type = 4 then
    let (bs, pos') := readAdv file pos 4
    .ok (.int (intFromBytesBE bs), pos')
  else if serial_type = 3 then
    let (bs, pos') := readAdv file pos 3
    .ok (.int (intFromBytesBE bs), pos')
  else if serial_type = 2 then
    let (bs, pos') := readAdv file pos 2
    .ok (.int (intFromBytesBE bs), pos')
  else if serial_type = 1 then
    let (bs, pos') := readAdv file pos 1
    .ok (.int (intFromBytesBE bs), pos')
  else if serial_type = 0 then .ok (.null, pos)
  else .error (.unhandledSerialType serial_type)

/-- record_parser.py `parse_record`, first list comprehension: read exactly
`n` serial-type varints. -/
def parseSerialTypes (file : DbFile) : Nat → Nat → Except DbError (List Nat × Nat)
  | 0, pos => .ok ([], pos)
  | n + 1, pos => do
    let (st, pos1) ← parse_varint file pos
    let (sts, pos2) ← parseSerialTypes file n pos1
    .ok (st :: sts, pos2)

/-- record_parser.py `parse_record`, second list comprehension: one value per
serial type, left to right. -/
def parseValuesFor (file : DbFile) : List Nat → Nat → Except DbError (List Value × Nat)
  | [], pos => .ok ([], pos)
  | st :: sts, pos => do
    let (v, pos1) ← parse_record_value file pos st
    let (vs, pos2) ← parseValuesFor file sts pos1
    .ok (v :: vs, pos2)

/-- record_parser.py `parse_record(stream, number_of_values)`: the
`header_size` varint is read and discarded, then exactly `number_of_values`
serial-type varints, then the values.  No check relates the header size to the
number of serial types. -/
def parse_record (file : DbFile) (pos : Nat) (number_of_values : Nat) :
    Except DbError (List Value × Nat) := do
  let (_number_of_bytes_in_header, pos1) ← parse_varint file pos
  let (serial_types, pos2) ← parseSerialTypes file number_of_values pos1
  parseValuesFor file serial_types pos2

/-- The dict comprehension of record_parser.py `parse_table_record`:
`column.name: rowid if column.is_primary_key else column_values[i]`.
`parse_record` returns exactly `len(table.columns)` values (theorem
`parse_record_length` below), so pairing by `zip` is the same indexing. -/
def buildColumnMap (cols : List Column) (vals : List Value) (rowid : Nat) :
    List (String × Value) :=
  (cols.zip vals).foldl
    (fun acc cv =>
      dictInsert acc cv.1.name (if cv.1.is_primary_key then .int rowid else cv.2)) []

/-- record_parser.py `parse_table_record(stream, table, rowid)`. -/
def parse_table_record (file : DbFile) (pos : Nat) (table : Table) (rowid : Nat) :
    Except DbError Record := do
  let cols ← table.columns
  let (column_values, _) ← parse_record file pos cols.length
  .ok ⟨rowid, buildColumnMap cols column_values rowid⟩

/-- Modelled from the spec: `class Index` is imported from `app.models` by
pages.py and record_parser.py but models.py does not define it.  Spec sections
3 and 4.2: an index has `name`, `root_page`, `create_sql`; its indexed column
names are the content between the parentheses of the `CREATE INDEX` statement
(one column; multi-column indexes are out of scope), and record_parser
accesses them as `index.column_names`. -/
structure Index where
  name : String
  root_page : Nat
  create_index_sql : String
  column_names : List String
  deriving DecidableEq, Repr

/-- Python's `x or y` for a value in `x or b""` position: falsy values
(`None`, `0`, `b""`) are replaced by `b""`. -/
def pyOr (v : Value) : Value :=
  match v with
  | .null => .bytes []
  | .int i => if i = 0 then .bytes [] else .int i
  | .bytes bs => if bs = [] then .bytes [] else .bytes bs

/-- Python `.decode('utf-8')` on a value: only bytes have the attribute
(`int` raises `AttributeError`; `None` cannot reach this point after
`or b""`). -/
def valueDecode (v : Value) : Except DbError String :=
  match v with
  | .bytes bs => decodeUtf8 bs
  | _ => .error .attributeError

/-- record_parser.py `parse_index_record(stream, index)`: decode
`len(index.column_names) + 1` values, return `((values[0] or b"").decode(
'utf-8'), values[1])`. -/
def parse_index_record (file : DbFile) (pos : Nat) (index : Index) :
    Except DbError (String × Value) := do
  let (values, _) ← parse_record file pos (index.column_names.length + 1)
  let v0 ← match values.get? 0 with
    | some v => Except.ok v
    | none => Except.error .indexError
  let v1 ← match values.get? 1 with
    | some v => Except.ok v
    | none => Except.error .indexError
  let key ← valueDecode (pyOr v0)
  .ok (key, v1)

/-- models.py `DatabaseHeader`: only `page_size`, the 16-bit big-endian
integer at file offset 16, is consumed. -/
structure DatabaseHeader where
  page_size : Nat
  deriving DecidableEq, Repr

/-- models.py `DatabaseHeader.parse_from`. -/
def DatabaseHeader.parse_from (file : DbFile) : DatabaseHeader :=
  ⟨intFromBytesBE (pyRead file 16 2)⟩

/-- models.py `PageHeader` (as in the snapshot: `right_most_pointer` is set
only for interior table pages, `None` otherwise). -/
structure PageHeader where
  page_type : Nat
  first_free_block_start : Nat
  number_of_cells : Nat
  start_of_content_area : Nat
  fragmented_free_bytes : Nat
  right_most_pointer : Option Nat
  deriving DecidableEq, Repr

/-- models.py `PageHeader.is_leaf_table_btree_page`. -/
def PageHeader.is_leaf_table_btree_page (h : PageHeader) : Bool :=
  h.page_type = 13

/-- models.py `PageHeader.is_interior_table_btree_page`. -/
def PageHeader.is_interior_table_btree_page (h : PageHeader) : Bool :=
  h.page_type = 5

/-- models.py `PageHeader.is_leaf_page` (only the leaf-table type counts; the
source carries a TODO about index pages). -/
def PageHeader.is_leaf_page (h : PageHeader) : Bool :=
  h.is_leaf_table_btree_page

/-- models.py `PageHeader.size`: 8 bytes for leaves, 12 for interiors. -/
def PageHeader.size (h : PageHeader) : Nat :=
  if h.is_leaf_page then 8 else 12

/-- models.py `PageHeader.parse_from`: reads the type byte and raises unless
it is 13 (leaf table) or 5 (interior table) — the `xor` guard; then the four
fixed fields and, for interior table pages only, the 4-byte rightmost
pointer.  Page types 2 and 10 therefore never survive this parse. -/
def PageHeader.parse_from (file : DbFile) (pos : Nat) :
    Except DbError (PageHeader × Nat) :=
  let (tb, pos1) := readAdv file pos 1
  let t := intFromBytesBE tb
  if t = 13 ∨ t = 5 then
    let (b1, pos2) := readAdv file pos1 2
    let (b2, pos3) := readAdv file pos2 2
    let (b3, pos4) := readAdv file pos3 2
    let (b4, pos5) := readAdv file pos4 1
    if t = 5 then
      let (b5, pos6) := readAdv file pos5 4
      .ok (⟨t, intFromBytesBE b1, intFromBytesBE b2, intFromBytesBE b3,
        intFromBytesBE b4, some (intFromBytesBE b5)⟩, pos6)
    else
      .ok (⟨t, intFromBytesBE b1, intFromBytesBE b2, intFromBytesBE b3,
        intFromBytesBE b4, none⟩, pos5)
  else .error (.invalidPageType t)

/-- pages.py `Page` (the dataclass fields shared by all page classes). -/
structure Page where
  header : PageHeader
  number : Nat
  size : Nat
  deriving DecidableEq, Repr

/-- pages.py `Page.start_index`. -/
def Page.start_index (p : Page) : Nat := (p.number - 1) * p.size

/-- pages.py `Page.file_header_size`. -/
def Page.file_header_size (p : Page) : Nat := if p.number = 1 then 100 else 0

/-- pages.py `Page.cell_pointer_array_start_index`. -/
def Page.cell_pointer_array_start_index (p : Page) : Nat :=
  p.start_index + p.file_header_size + p.header.size

/-- pages.py `Page.parse_unknown_type_from`: read the page size from the
database header, seek to the page start (plus 100 on page 1) and parse the
page header.  The source then dispatches on the header's page-kind
properties; because `PageHeader.parse_from` only admits types 5 and 13, the
two index branches (which would consult `is_interior_index_btree_page` and
`is_leaf_index_btree_page`, attributes `models.PageHeader` does not define)
are unreachable. -/
def Page.parse_unknown_type_from (file : DbFile) (page_number : Nat) :
    Except DbError Page := do
  let file_header_size := if page_number = 1 then 100 else 0
  let page_size := (DatabaseHeader.parse_from file).page_size
  let page_start := (page_number - 1) * page_size
  let (page_header, _) ← PageHeader.parse_from file (page_start + file_header_size)
  if page_header.is_leaf_table_btree_page then
    .ok ⟨page_header, page_number, page_size⟩
  else if page_header.is_interior_table_btree_page then
    .ok ⟨page_header, page_number, page_size⟩
  else
    .error .attributeError

/-- pages.py `Page.read_cell_pointers`: `number_of_cells` sequential 2-byte
big-endian reads starting at the cell pointer array. -/
def readCellPointersAux (file : DbFile) : Nat → Nat → List Nat
  | 0, _ => []
  | n + 1, pos =>
    let (bs, pos1) := readAdv file pos 2
    intFromBytesBE bs :: readCellPointersAux file n pos1

/-- pages.py `Page.read_cell_pointers`. -/
def Page.read_cell_pointers (file : DbFile) (p : Page) : List Nat :=
  readCellPointersAux file p.header.number_of_cells p.cell_pointer_array_start_index

/-- One iteration of `LeafTableBTreePage.parse_records_from` (pages.py and the
identical loop in main.py): seek to `start_index + cell_pointer`, read and
drop the payload-size varint — no overflow check here — read the rowid
varint, and parse the record. -/
def parseLeafCellRecord (file : DbFile) (start_index : Nat) (table : Table)
    (cell_pointer : Nat) : Except DbError Record := do
  let (_number_of_bytes_in_payload, pos1) ← parse_varint file (start_index + cell_pointer)
  let (rowid, pos2) ← parse_varint file pos1
  parse_table_record file pos2 table rowid

/-- The loop of `LeafTableBTreePage.parse_records_from` over the cell
pointers. -/
def parseLeafRecordsList (file : DbFile) (start_index : Nat) (table : Table) :
    List Nat → Except DbError (List Record)
  | [] => .ok []
  | cp :: cps => do
    let r ← parseLeafCellRecord file start_index table cp
    let rs ← parseLeafRecordsList file start_index table cps
    .ok (r :: rs)

/-- pages.py `LeafTableBTreePage.parse_records_from`. -/
def LeafTableBTreePage.parse_records_from (file : DbFile) (p : Page)
    (table : Table) : Except DbError (List Record) :=
  parseLeafRecordsList file p.start_index table (p.read_cell_pointers file)

/-- pages.py `InteriorTableBTreePageCell`. -/
structure InteriorTableBTreePageCell where
  left_child_pointer : Nat
  key : Nat
  deriving DecidableEq, Repr

/-- The loop of `InteriorTableBTreePage.parse_cells_from`: per pointer a
4-byte big-endian left child pointer then the key varint. -/
def parseInteriorCellsList (file : DbFile) (start_index : Nat) :
    List Nat → Except DbError (List InteriorTableBTreePageCell)
  | [] => .ok []
  | cp :: cps => do
    let (bs, pos1) := readAdv file (start_index + cp) 4
    let (key, _) ← parse_varint file pos1
    let cs ← parseInteriorCellsList file start_index cps
    .ok (⟨intFromBytesBE bs, key⟩ :: cs)

/-- pages.py `InteriorTableBTreePage.parse_cells_from`. -/
def InteriorTableBTreePage.parse_cells_from (file : DbFile) (p : Page) :
    Except DbError (List InteriorTableBTreePageCell) :=
  parseInteriorCellsList file p.start_index (p.read_cell_pointers file)

/-- pages.py `LeafIndexBTreePageCell` (the rowid is `values[1]` of the
record, stored as decoded). -/
structure LeafIndexBTreePageCell where
  key : String
  rowid : Value
  deriving DecidableEq, Repr

/-- pages.py `InteriorIndexBTreePageCell`. -/
structure InteriorIndexBTreePageCell where
  left_child_pointer : Nat
  key : String
  rowid : Value
  deriving DecidableEq, Repr

/-- pages.py `LeafIndexBTreePage.parse_cells_from` over its cell pointers:
read the payload-size varint and raise `Exception("Overflow page!")` when
`cell_pointer + number_of_bytes_in_payload > self.size`, else decode the
index record. -/
def LeafIndexBTreePage.parse_cells_from (file : DbFile) (start_index size : Nat)
    (index : Index) : List Nat → Except DbError (List LeafIndexBTreePageCell)
  | [] => .ok []
  | cell_pointer :: rest => do
    let (number_of_bytes_in_payload, pos1) ← parse_varint file (start_index + cell_pointer)
    if cell_pointer + number_of_bytes_in_payload > size then
      .error .overflowPage
    else do
      let (key, rowid) ← parse_index_record file pos1 index
      let cs ← LeafIndexBTreePage.parse_cells_from file start_index size index rest
      .ok (⟨key, rowid⟩ :: cs)

/-- pages.py `InteriorIndexBTreePage.parse_cells_from`: as the leaf version
but with a 4-byte left child pointer before the payload-size varint. -/
def InteriorIndexBTreePage.parse_cells_from (file : DbFile) (start_index size : Nat)
    (index : Index) : List Nat → Except DbError (List InteriorIndexBTreePageCell)
  | [] => .ok []
  | cell_pointer :: rest => do
    let (bs, pos1) := readAdv file (start_index + cell_pointer) 4
    let (number_of_bytes_in_payload, pos2) ← parse_varint file pos1
    if cell_pointer + number_of_bytes_in_payload > size then
      .error .overflowPage
    else do
      let (key, rowid) ← parse_index_record file pos2 index
      let cs ← InteriorIndexBTreePage.parse_cells_from file start_index size index rest
      .ok (⟨intFromBytesBE bs, key, rowid⟩ :: cs)

/-- The loop body of main.py `read_table_rows`'s inner function
`collect_records_from_interior_or_leaf_page`, with the recursive call
abstracted as `recur`: `records += collect(...cell.left_child_pointer)` for
each cell in order, then `records += collect(...right_most_pointer)`. -/
def collectCellsWith (recur : Nat → Except DbError (List Record)) :
    List InteriorTableBTreePageCell → Except DbError (List Record)
  | [] => .ok []
  | c :: cs => do
    let a ← recur c.left_child_pointer
    let b ← collectCellsWith recur cs
    .ok (a ++ b)

/-- One unfolding of `collect_records_from_interior_or_leaf_page`: parse the
page; a leaf-table page contributes its records in cell-pointer order; an
interior-table page contributes each left child's records in cell order and
then the rightmost pointer's.  (The source parses the page a second time via
the page-class `parse_from`; parsing is pure, so the single parse here yields
the same data.) -/
def collectStep (file : DbFile) (table : Table)
    (recur : Nat → Except DbError (List Record)) (page_number : Nat) :
    Except DbError (List Record) := do
  let page ← Page.parse_unknown_type_from file page_number
  if page.header.is_leaf_table_btree_page then
    LeafTableBTreePage.parse_records_from file page table
  else if page.header.is_interior_table_btree_page then do
    let cells ← InteriorTableBTreePage.parse_cells_from file page
    let a ← collectCellsWith recur cells
    match page.header.right_most_pointer with
    | some rmp => do
      let b ← recur rmp
      .ok (a ++ b)
    | none => .error .attributeError
  else .error .attributeError

/-- main.py `collect_records_from_interior_or_leaf_page`, with explicit
recursion fuel (Python instead overflows the interpreter stack on a cyclic
page graph; fuel 0 stands for that `RecursionError`). -/
def collect_records_from_interior_or_leaf_page (file : DbFile) (table : Table) :
    Nat → Nat → Except DbError (List Record)
  | 0, _ => .error .recursionLimit
  | fuel + 1, page_number =>
    collectStep file table
      (fun pn => collect_records_from_interior_or_leaf_page file table fuel pn)
      page_number

/-- main.py `read_table_rows`. -/
def read_table_rows (file : DbFile) (table : Table) (fuel : Nat) :
    Except DbError (List Record) :=
  collect_records_from_interior_or_leaf_page file table fuel table.root_page

/-- Does `n` lie in the half-open interval `(lo, hi]` (an absent bound is no
constraint)? -/
def boundsOkB (lo hi : Option Nat) (n : Nat) : Bool :=
  (match lo with
   | none => true
   | some l => decide (l < n)) &&
  (match hi with
   | none => true
   | some h => decide (n ≤ h))

/-- Are the listed rowids strictly increasing and all inside `(lo, hi]`?  The
lower bound is threaded through the list, which makes it state both facts at
once. -/
def sortedInBoundsB (lo hi : Option Nat) : List Nat → Bool
  | [] => true
  | n :: ns => boundsOkB lo hi n && sortedInBoundsB (some n) hi ns

/-- Well-formedness of the subtrees hanging off an interior page's cells,
with the recursive tree check abstracted as `recur`: each cell's key must lie
in `(lo, hi]`, the cell's left subtree must be well formed with rowids in
`(lo, key]`, and the remaining cells continue with lower bound `key`; after
the last cell the rightmost subtree covers `(last key, hi]`. -/
def cellsWFWith (recur : Nat → Option Nat → Option Nat → Bool) :
    List InteriorTableBTreePageCell → Option Nat → Option Nat → Nat → Bool
  | [], lo, hi, rmp => recur rmp lo hi
  | c :: cs, lo, hi, rmp =>
    boundsOkB lo hi c.key &&
    recur c.left_child_pointer lo (some c.key) &&
    cellsWFWith recur cs (some c.key) hi rmp

/-- One unfolding of the well-formed-table-B-tree check: the page parses; a
leaf's records parse with rowids strictly increasing inside `(lo, hi]`; an
interior page's cells parse, its rightmost pointer is present, and its
subtrees are well formed under the key bounds. -/
def treeWFStep (file : DbFile) (table : Table)
    (recur : Nat → Option Nat → Option Nat → Bool) (page_number : Nat)
    (lo hi : Option Nat) : Bool :=
  match Page.parse_unknown_type_from file page_number with
  | .error _ => false
  | .ok page =>
    if page.header.is_leaf_table_btree_page then
      match LeafTableBTreePage.parse_records_from file page table with
      | .error _ => false
      | .ok rs => sortedInBoundsB lo hi (rs.map Record.rowid)
    else if page.header.is_interior_table_btree_page then
      match InteriorTableBTreePage.parse_cells_from file page,
        page.header.right_most_pointer with
      | .ok cells, some rmp => cellsWFWith (recur) cells lo hi rmp
      | .ok _, none => false
      | .error _, _ => false
    else false

/-- A well-formed table B-tree of height below `fuel` rooted at
`page_number`, all of whose rowids lie in `(lo, hi]`.  This is the on-disk
counterpart of spec section 3's invariants for table B-trees: pages decode,
cell pointers are stored in key order, and interior keys separate their
subtrees. -/
def treeWF (file : DbFile) (table : Table) :
    Nat → Nat → Option Nat → Option Nat → Bool
  | 0, _, _, _ => false
  | fuel + 1, page_number, lo, hi =>
    treeWFStep file table (fun pn => treeWF file table fuel pn) page_number lo hi

/-- main.py's module-level `SQLITE_SCHEMA_TABLE`. -/
def SQLITE_SCHEMA_TABLE : Table :=
  ⟨"sqlite_schema", 1,
    "CREATE TABLE sqlite_schema ( type text, name text, tbl_name text, rootpage text, sql text )"⟩

/-- Python `row["tbl_name"] != b"sqlite_sequence"`: bytes compare by
contents; any non-bytes value is unequal to a bytes literal. -/
def valueNeBytes (v : Value) (bs : List Nat) : Bool :=
  match v with
  | .bytes l => decide (¬ l = bs)
  | _ => true

/-- The list comprehension of main.py `read_sqlite_schema_records`:
`[row for row in rows if row["tbl_name"] != b"sqlite_sequence"]` (the lookup
itself may raise). -/
def filterSchemaRows : List Record → Except DbError (List Record)
  | [] => .ok []
  | r :: rs => do
    let v ← r.getitem "tbl_name"
    let rest ← filterSchemaRows rs
    if valueNeBytes v (strBytes "sqlite_sequence") then .ok (r :: rest)
    else .ok rest

/-- main.py `read_sqlite_schema_records`. -/
def read_sqlite_schema_records (file : DbFile) (fuel : Nat) :
    Except DbError (List Record) := do
  let rows ← read_table_rows file SQLITE_SCHEMA_TABLE fuel
  filterSchemaRows rows

/-- The number printed by main.py `handle_dot_command` for `.dbinfo`:
`len(read_sqlite_schema_records(...))`. -/
def dbinfoCount (file : DbFile) (fuel : Nat) : Except DbError Nat :=
  (read_sqlite_schema_records file fuel).map List.length

/-- The count claim C2 describes: schema rows whose `type` column equals
`b"table"` and whose `tbl_name` is not `b"sqlite_sequence"` (written from the
claim's words, for comparison with `dbinfoCount`). -/
def claimTableCount (file : DbFile) (fuel : Nat) : Except DbError Nat := do
  let rows ← read_table_rows file SQLITE_SCHEMA_TABLE fuel
  .ok (rows.filter fun r =>
    (match lookupVal r.column_names_to_values "type" with
     | some v => decide (v = .bytes (strBytes "table"))
     | none => false) &&
    (match lookupVal r.column_names_to_values "tbl_name" with
     | some v => valueNeBytes v (strBytes "sqlite_sequence")
     | none => true)).length

/-- One filter test of main.py `execute_statement`:
`(row[filter_clause[0]] or b"").decode('utf-8') == filter_clause[1]`. -/
def filterRowTest (r : Record) (column literal : String) : Except DbError Bool := do
  let v ← r.getitem column
  let s ← valueDecode (pyOr v)
  .ok (decide (s = literal))

/-- The list comprehension applying one filter clause:
`[row for row in rows if (row[c] or b"").decode('utf-8') == lit]`. -/
def applyFilterClause (column literal : String) :
    List Record → Except DbError (List Record)
  | [] => .ok []
  | r :: rs => do
    let keep ← filterRowTest r column literal
    let rest ← applyFilterClause column literal rs
    if keep then .ok (r :: rest) else .ok rest

/-- Splitting on commas at top level only (depth-aware), as claim C8
describes: commas inside nested parentheses do not split. -/
def splitTopComma : List Char → Nat → List (List Char)
  | [], _ => [[]]
  | c :: cs, d =>
    if c = ',' ∧ d = 0 then [] :: splitTopComma cs 0
    else
      let d' := if c = '(' then d + 1 else if c = ')' then d - 1 else d
      match splitTopComma cs d' with
      | [] => [[c]]
      | g :: gs => (c :: g) :: gs

/-- The parenthesized body as claim C8 reads it: everything after the first
`(` up to its matching `)`, nested parentheses kept. -/
def takeBalanced : List Char → Nat → List Char
  | [], _ => []
  | c :: cs, d =>
    if c = ')' then (if d = 0 then [] else c :: takeBalanced cs (d - 1))
    else if c = '(' then c :: takeBalanced cs (d + 1)
    else c :: takeBalanced cs d

/-- Column derivation as claim C8 states it: isolate the full parenthesized
body, split on top-level commas only, and build columns with the same
name/type/primary-key rules. -/
def columnsClaim (t : Table) : Except DbError (List Column) :=
  let s := stripL t.create_table_sql.toList
  if ('(' : Char) ∈ s then
    let body := takeBalanced ((s.dropWhile fun c => !(c = '(')).tail) 0
    columnsList ((splitTopComma (List.intercalate [' '] (pySplitWs body)) 0).map stripL)
  else .error .indexError

/-- Column derivation as the code actually behaves (the amended claim C8):
the body is the text after the first `(`, truncated at the next `(` or `)`,
and every comma splits, nested or not. -/
def columnsAmended (t : Table) : Except DbError (List Column) :=
  let s := stripL t.create_table_sql.toList
  if ('(' : Char) ∈ s then
    let body := ((s.dropWhile fun c => !(c = '(')).tail).takeWhile
      fun c => !(c = '(') && !(c = ')')
    columnsList ((splitChar ',' (List.intercalate [' '] (pySplitWs body))).map stripL)
  else .error .indexError

/-- Write `bs` into `file` starting at offset `pos` (fixture builder). -/
def writeAt (file : List Nat) (pos : Nat) (bs : List Nat) : List Nat :=
  file.take pos ++ bs ++ file.drop (pos + bs.length)

/-- A one-column table rooted at page 2 for the fixtures. -/
def tableT : Table := ⟨"t", 2, "CREATE TABLE t (a text)"⟩

/-- Fixture database `F1`: page size 32; page 2 is an interior table page
with one cell (left child 3, key 2) and rightmost pointer 4; pages 3 and 4
are leaf table pages holding rowids 1, 2 and 3, each record a single NULL
column. -/
def F1 : DbFile :=
  writeAt (writeAt (writeAt (writeAt (writeAt (writeAt (writeAt (writeAt
    (writeAt (List.replicate 128 0)
      16 [0, 32])
      32 [5, 0, 0, 0, 1, 0, 0, 0, 0, 0, 0, 4])
      44 [0, 20])
      52 [0, 0, 0, 3, 2])
      64 [13, 0, 0, 0, 2, 0, 0, 0])
      72 [0, 20, 0, 24])
      84 [2, 1, 2, 0])
      88 [2, 2, 2, 0])
      96 [13, 0, 0, 0, 1, 0, 0, 0]
  |> fun f => writeAt (writeAt f 104 [0, 20]) 116 [2, 3, 2, 0]

/-- Fixture database `F2`: page size 256; page 1 is a leaf table page whose
two cells are sqlite_schema rows — rowid 1 a `table` row for `t` (rootpage
2) and rowid 2 an `index` row for `t` (rootpage 3), both with NULL `sql`. -/
def F2 : DbFile :=
  writeAt (writeAt (writeAt (writeAt
    (List.replicate 256 0)
    16 [1, 0])
    100 [13, 0, 0, 0, 2, 0, 0, 0])
    108 [0, 200, 0, 220])
    200 [14, 1, 6, 23, 15, 15, 1, 0, 116, 97, 98, 108, 101, 116, 116, 2]
  |> fun f =>
    writeAt f 220 [14, 2, 6, 23, 15, 15, 1, 0, 105, 110, 100, 101, 120, 105, 116, 3]

/-- Fixture `F3a`: the body of page 1 begins with page type 10 (leaf index). -/
def F3a : DbFile := writeAt (List.replicate 112 0) 100 [10]

/-- Fixture `F3b`: the body of page 1 begins with page type 2 (interior
index). -/
def F3b : DbFile := writeAt (List.replicate 112 0) 100 [2]

/-- Fixture `F3c`: the body of page 1 begins with page type 13 (leaf
table). -/
def F3c : DbFile := writeAt (List.replicate 112 0) 100 [13]

/-- Fixture database `F4`: page size 32; page 2 is a leaf table page with one
cell at pointer 20 whose declared payload size is 100 — far beyond the 32
bytes of the page — followed by rowid 1 and a one-NULL record. -/
def F4 : DbFile :=
  writeAt (writeAt (writeAt (writeAt
    (List.replicate 64 0)
    16 [0, 32])
    32 [13, 0, 0, 0, 1, 0, 0, 0])
    40 [0, 20])
    52 [100, 1, 2, 0]

/-- A single-column index fixture for the index-cell parsers. -/
def indexI : Index := ⟨"i", 3, "CREATE INDEX i on t (a)", ["a"]⟩

/-- Fixture region `F5`: at offset 10 a leaf-index cell (payload 5: record
header 3, serial types 15 and 1, key "a", rowid 7) and at offset 20 an
interior-index cell (left child 9, payload 5, key "b", rowid 8). -/
def F5 : DbFile :=
  writeAt (writeAt
    (List.replicate 32 0)
    10 [5, 3, 15, 1, 97, 7])
    20 [0, 0, 0, 9, 5, 3, 15, 1, 98, 8]

theorem parseSerialTypes_length (file : DbFile) :
    ∀ (n pos : Nat) (sts : List Nat) (pos' : Nat),
      parseSerialTypes file n pos = .ok (sts, pos') → sts.length = n := by
  intro n
  induction n with
  | zero =>
    intro pos sts pos' h
    simp only [parseSerialTypes] at h
    cases h
    rfl
  | succ m ih =>
    intro pos sts pos' h
    simp only [parseSerialTypes] at h
    cases hv : parse_varint file pos with
    | error e => rw [hv] at h; simp [Bind.bind, Except.bind] at h
    | ok vp =>
      rw [hv] at h
      simp only [Bind.bind, Except.bind] at h
      cases hr : parseSerialTypes file m vp.2 with
      | error e => rw [hr] at h; simp at h
      | ok sp =>
        rw [hr] at h
        simp only [Except.ok.injEq, Prod.mk.injEq] at h
        obtain ⟨h1, _⟩ := h
        subst h1
        simp [ih vp.2 sp.1 sp.2 (by rw [hr])]

theorem parseValuesFor_length (file : DbFile) :
    ∀ (sts : List Nat) (pos : Nat) (vs : List Value) (pos' : Nat),
      parseValuesFor file sts pos = .ok (vs, pos') → vs.length = sts.length := by
  intro sts
  induction sts with
  | nil =>
    intro pos vs pos' h
    simp only [parseValuesFor] at h
    cases h
    rfl
  | cons st more ih =>
    intro pos vs pos' h
    simp only [parseValuesFor] at h
    cases hv : parse_record_value file pos st with
    | error e => rw [hv] at h; simp [Bind.bind, Except.bind] at h
    | ok vp =>
      rw [hv] at h
      simp only [Bind.bind, Except.bind] at h
      cases hr : parseValuesFor file more vp.2 with
      | error e => rw [hr] at h; simp at h
      | ok sp =>
        rw [hr] at h
        simp only [Except.ok.injEq, Prod.mk.injEq] at h
        obtain ⟨h1, _⟩ := h
        subst h1
        simp [ih vp.2 sp.1 sp.2 (by rw [hr])]

theorem parse_record_length (file : DbFile) (pos n : Nat) (vs : List Value)
    (pos' : Nat) (h : parse_record file pos n = .ok (vs, pos')) : vs.length = n := by
  unfold parse_record at h
  cases hv : parse_varint file pos with
  | error e => rw [hv] at h; simp [Bind.bind, Except.bind] at h
  | ok vp =>
    rw [hv] at h
    simp only [Bind.bind, Except.bind] at h
    cases hs : parseSerialTypes file n vp.2 with
    | error e => rw [hs] at h; simp at h
    | ok sp =>
      rw [hs] at h
      simp only at h
      have h1 := parseValuesFor_length file sp.1 sp.2 vs pos' h
      have h2 := parseSerialTypes_length file n vp.2 sp.1 sp.2 (by rw [hs])
      omega

theorem lookupVal_eq_none (l : List (String × Value)) (k : String)
    (h : k ∉ l.map Prod.fst) : lookupVal l k = none := by
  induction l with
  | nil => rfl
  | cons p ps ih =>
    simp only [List.map_cons, List.mem_cons, not_or] at h
    have hne : ¬ p.1 = k := fun he => h.1 he.symm
    simp only [lookupVal, if_neg hne]
    exact ih h.2

theorem lookupVal_isSome (l : List (String × Value)) (k : String)
    (h : k ∈ l.map Prod.fst) : ∃ v, lookupVal l k = some v := by
  induction l with
  | nil => simp at h
  | cons p ps ih =>
    simp only [List.map_cons, List.mem_cons] at h
    by_cases he : p.1 = k
    · exact ⟨p.2, by simp [lookupVal, he]⟩
    · simp only [lookupVal, if_neg he]
      exact ih (h.resolve_left fun hk => he hk.symm)

theorem filterSchemaRows_eq (rows : List Record)
    (h : ∀ r ∈ rows, ("tbl_name" : String) ∈ r.column_names_to_values.map Prod.fst) :
    filterSchemaRows rows = .ok (rows.filter fun r =>
      match lookupVal r.column_names_to_values "tbl_name" with
      | some v => valueNeBytes v (strBytes "sqlite_sequence")
      | none => true) := by
  induction rows with
  | nil => rfl
  | cons r rs ih =>
    have hr := h r (by simp)
    obtain ⟨v, hv⟩ := lookupVal_isSome _ _ hr
    have hrest := ih fun x hx => h x (by simp [hx])
    simp only [filterSchemaRows, Record.getitem, hv, Bind.bind, Except.bind, hrest,
      List.filter_cons]
    by_cases hkeep : valueNeBytes v (strBytes "sqlite_sequence") = true
    · simp [hv, hkeep]
    · simp only [Bool.not_eq_true] at hkeep
      simp [hv, hkeep]

theorem boundsOk_lo {lo hi : Option Nat} {n : Nat}
    (h : boundsOkB lo hi n = true) : ∀ l, lo = some l → l < n := by
  intro l hl
  subst hl
  simp only [boundsOkB, Bool.and_eq_true, decide_eq_true_eq] at h
  exact h.1

theorem boundsOk_hi {lo hi : Option Nat} {n : Nat}
    (h : boundsOkB lo hi n = true) : ∀ b, hi = some b → n ≤ b := by
  intro b hb
  subst hb
  simp only [boundsOkB, Bool.and_eq_true, decide_eq_true_eq] at h
  exact h.2

theorem boundsOk_of (lo hi : Option Nat) (n : Nat)
    (h1 : ∀ l, lo = some l → l < n) (h2 : ∀ b, hi = some b → n ≤ b) :
    boundsOkB lo hi n = true := by
  cases lo with
  | none => cases hi with
    | none => rfl
    | some b => simp [boundsOkB, h2 b rfl]
  | some l => cases hi with
    | none => simp [boundsOkB, h1 l rfl]
    | some b => simp [boundsOkB, h1 l rfl, h2 b rfl]

theorem sorted_weaken_lo {hi : Option Nat} {k : Nat} {ys : List Nat}
    (lo : Option Nat) (hl : ∀ l, lo = some l → l ≤ k)
    (h : sortedInBoundsB (some k) hi ys = true) :
    sortedInBoundsB lo hi ys = true := by
  cases ys with
  | nil => rfl
  | cons y ys' =>
    simp only [sortedInBoundsB, Bool.and_eq_true] at h ⊢
    refine ⟨?_, h.2⟩
    have hky := boundsOk_lo h.1 k rfl
    exact boundsOk_of _ _ _ (fun l he => lt_of_le_of_lt (hl l he) hky)
      (boundsOk_hi h.1)

theorem sorted_append {hi : Option Nat} {k : Nat} {ys : List Nat} :
    ∀ (xs : List Nat) (lo : Option Nat),
      (∀ l, lo = some l → l ≤ k) → (∀ b, hi = some b → k ≤ b) →
      sortedInBoundsB lo (some k) xs = true →
      sortedInBoundsB (some k) hi ys = true →
      sortedInBoundsB lo hi (xs ++ ys) = true := by
  intro xs
  induction xs with
  | nil => intro lo hl hh _ hy; exact sorted_weaken_lo lo hl hy
  | cons x xs' ih =>
    intro lo hl hh hx hy
    simp only [sortedInBoundsB, Bool.and_eq_true, List.cons_append] at hx ⊢
    have hxk := boundsOk_hi hx.1 k rfl
    refine ⟨boundsOk_of _ _ _ (boundsOk_lo hx.1) (fun b hb => le_trans hxk (hh b hb)), ?_⟩
    exact ih (some x) (fun l he => by cases he; exact hxk) hh hx.2 hy

theorem sorted_lower {hi : Option Nat} :
    ∀ (ys : List Nat) (l : Nat), sortedInBoundsB (some l) hi ys = true →
      ∀ n ∈ ys, l < n := by
  intro ys
  induction ys with
  | nil => intro l _ n hn; simp at hn
  | cons y ys' ih =>
    intro l h n hn
    simp only [sortedInBoundsB, Bool.and_eq_true] at h
    have hly := boundsOk_lo h.1 l rfl
    rcases List.mem_cons.mp hn with he | hm
    · exact he ▸ hly
    · exact lt_trans hly (ih y h.2 n hm)

theorem sorted_pairwise {hi : Option Nat} :
    ∀ (ys : List Nat) (lo : Option Nat), sortedInBoundsB lo hi ys = true →
      List.Pairwise (fun a b => a < b) ys := by
  intro ys
  induction ys with
  | nil => intro lo _; exact List.Pairwise.nil
  | cons y ys' ih =>
    intro lo h
    simp only [sortedInBoundsB, Bool.and_eq_true] at h
    exact List.Pairwise.cons (sorted_lower ys' y h.2) (ih (some y) h.2)

theorem collectCells_sorted (file : DbFile) (table : Table) (fuel : Nat)
    (IH : ∀ pn lo hi, treeWF file table fuel pn lo hi = true →
      ∃ rs, collect_records_from_interior_or_leaf_page file table fuel pn = .ok rs ∧
        sortedInBoundsB lo hi (rs.map Record.rowid) = true) :
    ∀ (cells : List InteriorTableBTreePageCell) (lo hi : Option Nat) (rmp : Nat),
      cellsWFWith (fun pn => treeWF file table fuel pn) cells lo hi rmp = true →
      ∃ a b,
        collectCellsWith
          (fun pn => collect_records_from_interior_or_leaf_page file table fuel pn)
          cells = .ok a ∧
        collect_records_from_interior_or_leaf_page file table fuel rmp = .ok b ∧
        sortedInBoundsB lo hi ((a ++ b).map Record.rowid) = true := by
  intro cells
  induction cells with
  | nil =>
    intro lo hi rmp h
    simp only [cellsWFWith] at h
    obtain ⟨b, hb, hs⟩ := IH rmp lo hi h
    exact ⟨[], b, rfl, hb, by simpa using hs⟩
  | cons c cs ihc =>
    intro lo hi rmp h
    simp only [cellsWFWith, Bool.and_eq_true] at h
    obtain ⟨⟨hbk, hchild⟩, hrest⟩ := h
    obtain ⟨a1, ha1, hs1⟩ := IH c.left_child_pointer lo (some c.key) hchild
    obtain ⟨a2, b, ha2, hb, hs2⟩ := ihc (some c.key) hi rmp hrest
    refine ⟨a1 ++ a2, b, ?_, hb, ?_⟩
    · simp only [collectCellsWith, ha1, ha2, Bind.bind, Except.bind]
    · rw [List.append_assoc, List.map_append]
      exact sorted_append _ lo
        (fun l he => le_of_lt (boundsOk_lo hbk l he))
        (boundsOk_hi hbk) hs1 hs2

theorem collect_sorted (file : DbFile) (table : Table) :
    ∀ (fuel pn : Nat) (lo hi : Option Nat),
      treeWF file table fuel pn lo hi = true →
      ∃ rs, collect_records_from_interior_or_leaf_page file table fuel pn = .ok rs ∧
        sortedInBoundsB lo hi (rs.map Record.rowid) = true := by
  intro fuel
  induction fuel with
  | zero => intro pn lo hi h; simp [treeWF] at h
  | succ n ih =>
    intro pn lo hi h
    simp only [treeWF, treeWFStep] at h
    simp only [collect_records_from_interior_or_leaf_page, collectStep]
    cases hp : Page.parse_unknown_type_from file pn with
    | error e => rw [hp] at h; simp at h
    | ok page =>
      rw [hp] at h
      simp only [Bind.bind, Except.bind] at h ⊢
      by_cases hleaf : page.header.is_leaf_table_btree_page = true
      · rw [if_pos hleaf] at h ⊢
        cases hr : LeafTableBTreePage.parse_records_from file page table with
        | error e => rw [hr] at h; simp at h
        | ok rs =>
          rw [hr] at h
          simp only [] at h
          exact ⟨rs, rfl, h⟩
      · rw [if_neg hleaf] at h ⊢
        by_cases hint : page.header.is_interior_table_btree_page = true
        · rw [if_pos hint] at h ⊢
          cases hc : InteriorTableBTreePage.parse_cells_from file page with
          | error e => rw [hc] at h; simp at h
          | ok cells =>
            rw [hc] at h
            simp only [Bind.bind, Except.bind] at h ⊢
            cases hrm : page.header.right_most_pointer with
            | none => rw [hrm] at h; simp at h
            | some rmp =>
              rw [hrm] at h
              simp only [] at h
              obtain ⟨a, b, ha, hb, hs⟩ :=
                collectCells_sorted file table n ih cells lo hi rmp h
              refine ⟨a ++ b, ?_, hs⟩
              simp only [ha, hb, Bind.bind, Except.bind]
        · rw [if_neg hint] at h
          simp at h

theorem splitChar_ne_nil (sep : Char) (l : List Char) : splitChar sep l ≠ [] := by
  cases l with
  | nil => simp [splitChar]
  | cons c cs =>
    simp only [splitChar]
    by_cases he : c = sep
    · simp [he]
    · rw [if_neg he]
      cases splitChar sep cs <;> simp

theorem splitChar_headD (sep : Char) (l : List Char) :
    (splitChar sep l).headD [] = l.takeWhile fun d => !(d = sep) := by
  induction l with
  | nil => rfl
  | cons c cs ih =>
    simp only [splitChar, List.takeWhile]
    by_cases he : c = sep
    · simp [he]
    · rw [if_neg he]
      cases hsc : splitChar sep cs with
      | nil => exact absurd hsc (splitChar_ne_nil sep cs)
      | cons g gs =>
        rw [hsc] at ih
        simp only [List.headD_cons] at ih
        simp [he, ih]

theorem splitChar_get1 (sep : Char) (l : List Char) :
    (splitChar sep l).get? 1 =
      if sep ∈ l then
        some (((l.dropWhile fun d => !(d = sep)).tail).takeWhile fun d => !(d = sep))
      else none := by
  induction l with
  | nil => rfl
  | cons c cs ih =>
    simp only [splitChar, List.dropWhile]
    by_cases he : c = sep
    · rw [if_pos he]
      have hm : sep ∈ c :: cs := by simp [he]
      rw [if_pos hm]
      simp only [he, decide_True, Bool.not_true, List.tail_cons]
      cases hsc : splitChar sep cs with
      | nil => exact absurd hsc (splitChar_ne_nil sep cs)
      | cons g gs =>
        have hh := splitChar_headD sep cs
        rw [hsc] at hh
        simp only [List.headD_cons] at hh
        simp [hh]
    · rw [if_neg he]
      have hmem : sep ∈ c :: cs ↔ sep ∈ cs := by
        simp only [List.mem_cons]
        constructor
        · intro hx
          exact hx.resolve_left fun hx1 => he hx1.symm
        · intro hx; exact Or.inr hx
      cases hsc : splitChar sep cs with
      | nil => exact absurd hsc (splitChar_ne_nil sep cs)
      | cons g gs =>
        rw [hsc] at ih
        have hpc : (!decide (c = sep)) = true := by simp [he]
        simp only [hpc, if_true, List.get?_cons_succ, List.get?_cons_zero] at *
        simp only [hmem]
        simpa using ih

theorem takeWhile_comp (p q : Char → Bool) (l : List Char) :
    (l.takeWhile p).takeWhile q = l.takeWhile fun a => p a && q a := by
  induction l with
  | nil => rfl
  | cons c cs ih =>
    simp only [List.takeWhile]
    by_cases hp : p c = true
    · by_cases hq : q c = true
      · simp [hp, hq, List.takeWhile, ih]
      · simp only [Bool.not_eq_true] at hq
        simp [hp, hq, List.takeWhile]
    · simp only [Bool.not_eq_true] at hp
      simp [hp]

/-- C3: the claim says `parse_page` returns a variant for each of the four
page types 2, 5, 10, 13 and fails on every other value.  The code disagrees:
`models.PageHeader.parse_from` admits only 5 and 13, so page types 10 and 2
are rejected before pages.py's (dead) index branches; type 13 still returns
the leaf-table variant.  This theorem evaluates the decoder at the failing
inputs. -/
theorem c3_page_type_dispatch_rejects_index_pages :
    Page.parse_unknown_type_from F3a 1 = .error (DbError.invalidPageType 10) ∧
    Page.parse_unknown_type_from F3b 1 = .error (DbError.invalidPageType 2) ∧
    Page.parse_unknown_type_from F3c 1 =
      .ok ⟨⟨13, 0, 0, 0, 0, none⟩, 1, 0⟩ :=
  ⟨rfl, rfl, rfl⟩

/-- C5 (amended): serial type 8 has no branch in `parse_record_value` and
fails like 5, 6, 7, 10 and 11; the failing serial types are exactly
5, 6, 7, 8, 10, 11. -/
theorem c5_unhandled_serial_types_exact (file : DbFile) (pos serial_type : Nat) :
    isErrB (parse_record_value file pos serial_type) = true ↔
      serial_type = 5 ∨ serial_type = 6 ∨ serial_type = 7 ∨ serial_type = 8 ∨
      serial_type = 10 ∨ serial_type = 11 := by
  unfold parse_record_value
  split_ifs with h1 h2 h3 h4 h5 h6 h7 h8 <;> simp [isErrB] <;> omega

/-- C5 counterexample: decoding serial type 8 raises
`Unhandled serial_type 8` instead of yielding the integer 0. -/
theorem c5_counterexample :
    parse_record_value [] 0 8 = .error (DbError.unhandledSerialType 8) := rfl

/-- C6: the claim (and the source's own comments) say serial type 1 decodes
as a signed two's-complement integer, so byte 0xFF would be −1; the code uses
`int.from_bytes(..., "big")` with Python's default `signed=False` and returns
255.  This theorem evaluates the decoder at the failing input. -/
theorem c6_serial_type_one_decodes_unsigned :
    parse_record_value [255] 0 1 = .ok (Value.int 255, 1) ∧
      Value.int 255 ≠ Value.int (-1) :=
  ⟨rfl, by decide⟩

/-- C7 (amended): `parse_record` reads the header-size varint (and discards
it), then exactly `n` serial-type varints, then one value per type; whenever
it returns, it returns exactly `n` values.  No malformed-record check is
performed. -/
theorem c7_parse_record_returns_n_values (file : DbFile)
    (pos number_of_values : Nat) (values : List Value) (pos' : Nat)
    (h : parse_record file pos number_of_values = .ok (values, pos')) :
    values.length = number_of_values :=
  parse_record_length file pos number_of_values values pos' h

theorem c7_witness :
    parse_record [1, 9] 0 1 = .ok ([Value.int 1], 2) ∧
      ([Value.int 1] : List Value).length = 1 :=
  ⟨rfl, c7_parse_record_returns_n_values [1, 9] 0 1 [Value.int 1] 2 rfl⟩

/-- C7 counterexample: the stream declares a 2-byte record header, but with
`n = 2` the header would need 3 bytes (its own varint plus two serial types).
The claim says the codec signals a malformed record; the code instead
consumes a payload byte as the second serial type and returns two values. -/
theorem c7_counterexample :
    parse_record [2, 1, 9, 171] 0 2 = .ok ([Value.int 171, Value.int 1], 4) ∧
      2 < 1 + 1 + 1 :=
  ⟨rfl, by decide⟩

/-- C9 (amended): looking up a column name that is absent from the record's
mapping raises `KeyError` (a plain dict indexing), not NULL. -/
theorem c9_absent_column_lookup_raises (r : Record) (item : String)
    (h : item ∉ r.column_names_to_values.map Prod.fst) :
    r.getitem item = .error .keyError := by
  unfold Record.getitem
  rw [lookupVal_eq_none _ _ h]

theorem c9_witness :
    Record.getitem ⟨1, [("a", Value.int 1)]⟩ "b" = .error DbError.keyError :=
  c9_absent_column_lookup_raises ⟨1, [("a", Value.int 1)]⟩ "b" (by decide)

/-- C9 counterexample: the claim says the lookup yields NULL; on a concrete
record without column "b" it raises `KeyError` instead. -/
theorem c9_counterexample :
    Record.getitem ⟨1, [("a", Value.int 1)]⟩ "b" ≠ .ok Value.null ∧
    Record.getitem ⟨1, [("a", Value.int 1)]⟩ "b" = .error DbError.keyError :=
  ⟨fun hc => Except.noConfusion hc, rfl⟩

theorem filterRowTest_int_err (r : Record) (column literal : String) (i : Int)
    (hg : r.getitem column = .ok (.int i)) (hi : ¬ i = 0) :
    filterRowTest r column literal = .error .attributeError := by
  unfold filterRowTest
  rw [hg]
  simp [Bind.bind, Except.bind, pyOr, hi, valueDecode]

/-- C10: applying an equality filter clause to a row whose value at the
filter column is a non-zero integer (such as the rowid substituted for an
integer primary key) raises an `AttributeError` (`int` has no `.decode`), so
the whole WHERE filtering aborts; a NULL or zero value is coerced to `b""`
and compares equal to the empty-string literal. -/
theorem c10_filter_errors_on_nonzero_integer_values (r : Record)
    (column literal : String) :
    (∀ i : Int, r.getitem column = .ok (.int i) → ¬ i = 0 →
      filterRowTest r column literal = .error .attributeError) ∧
    (r.getitem column = .ok .null ∨ r.getitem column = .ok (.int 0) →
      filterRowTest r column literal = .ok (decide (("" : String) = literal))) ∧
    (∀ (rows : List Record) (i : Int), r ∈ rows →
      r.getitem column = .ok (.int i) → ¬ i = 0 →
      isErrB (applyFilterClause column literal rows) = true) := by
  refine ⟨fun i hg hi => filterRowTest_int_err r column literal i hg hi, ?_, ?_⟩
  · intro hor
    unfold filterRowTest
    rcases hor with hg | hg <;>
      · rw [hg]
        rfl
  · intro rows i
    induction rows with
    | nil => intro hmem; simp at hmem
    | cons a as ihr =>
      intro hmem hg hi
      rcases List.mem_cons.mp hmem with he | hm
      · subst he
        have herr := filterRowTest_int_err r column literal i hg hi
        simp [applyFilterClause, herr, Bind.bind, Except.bind, isErrB]
      · have htail := ihr hm hg hi
        simp only [applyFilterClause, Bind.bind, Except.bind]
        cases hk : filterRowTest a column literal with
        | error e => simp [isErrB]
        | ok keep =>
          cases hr2 : applyFilterClause column literal as with
          | error e2 => cases keep <;> simp [isErrB]
          | ok lst =>
            rw [hr2] at htail
            simp [isErrB] at htail

theorem c10_witness :
    filterRowTest ⟨5, [("id", Value.int 5), ("z", Value.null)]⟩ "id" "x" =
      .error DbError.attributeError ∧
    filterRowTest ⟨5, [("id", Value.int 5), ("z", Value.null)]⟩ "z" "" =
      .ok true ∧
    isErrB (applyFilterClause "id" "x"
      [⟨5, [("id", Value.int 5), ("z", Value.null)]⟩]) = true :=
  ⟨(c10_filter_errors_on_nonzero_integer_values
      ⟨5, [("id", Value.int 5), ("z", Value.null)]⟩ "id" "x").1 5 rfl (by decide),
   (c10_filter_errors_on_nonzero_integer_values
      ⟨5, [("id", Value.int 5), ("z", Value.null)]⟩ "z" "").2.1 (Or.inl rfl),
   (c10_filter_errors_on_nonzero_integer_values
      ⟨5, [("id", Value.int 5), ("z", Value.null)]⟩ "id" "x").2.2
      [⟨5, [("id", Value.int 5), ("z", Value.null)]⟩] 5 (by simp) rfl (by decide)⟩

/-- C4 (amended): only the leaf-index and interior-index cell decoders check
the declared payload size — whenever they return cells, every cell pointer
`p` satisfied `p + payload_size ≤ page size`.  (Leaf-table record decoding,
by contrast, reads and discards the payload size with no check; see the
counterexample.) -/
theorem c4_overflow_check_only_on_index_cells (file : DbFile)
    (start_index size : Nat) (index : Index) :
    (∀ (ptrs : List Nat) (cells : List LeafIndexBTreePageCell),
      LeafIndexBTreePage.parse_cells_from file start_index size index ptrs = .ok cells →
      ∀ p ∈ ptrs, ∃ n pos', parse_varint file (start_index + p) = .ok (n, pos') ∧
        p + n ≤ size) ∧
    (∀ (ptrs : List Nat) (cells : List InteriorIndexBTreePageCell),
      InteriorIndexBTreePage.parse_cells_from file start_index size index ptrs = .ok cells →
      ∀ p ∈ ptrs, ∃ n pos', parse_varint file ((readAdv file (start_index + p) 4).2) =
        .ok (n, pos') ∧ p + n ≤ size) := by
  constructor
  · intro ptrs
    induction ptrs with
    | nil => intro cells _ p hp; simp at hp
    | cons q qs ih =>
      intro cells h p hp
      simp only [LeafIndexBTreePage.parse_cells_from] at h
      cases hv : parse_varint file (start_index + q) with
      | error e => rw [hv] at h; simp [Bind.bind, Except.bind] at h
      | ok np =>
        rw [hv] at h
        simp only [Bind.bind, Except.bind] at h
        by_cases hover : q + np.1 > size
        · rw [if_pos hover] at h; simp at h
        · rw [if_neg hover] at h
          rcases List.mem_cons.mp hp with he | hm
          · subst he
            exact ⟨np.1, np.2, by rw [hv], Nat.le_of_not_lt hover⟩
          · cases hir : parse_index_record file np.2 index with
            | error e => rw [hir] at h; simp [Bind.bind, Except.bind] at h
            | ok kr =>
              rw [hir] at h
              simp only [Bind.bind, Except.bind] at h
              cases hrec : LeafIndexBTreePage.parse_cells_from file start_index size index qs with
              | error e => rw [hrec] at h; simp at h
              | ok cs => exact ih cs hrec p hm
  · intro ptrs
    induction ptrs with
    | nil => intro cells _ p hp; simp at hp
    | cons q qs ih =>
      intro cells h p hp
      simp only [InteriorIndexBTreePage.parse_cells_from] at h
      cases hv : parse_varint file ((readAdv file (start_index + q) 4).2) with
      | error e => rw [hv] at h; simp [Bind.bind, Except.bind] at h
      | ok np =>
        rw [hv] at h
        simp only [Bind.bind, Except.bind] at h
        by_cases hover : q + np.1 > size
        · rw [if_pos hover] at h; simp at h
        · rw [if_neg hover] at h
          rcases List.mem_cons.mp hp with he | hm
          · subst he
            exact ⟨np.1, np.2, by rw [hv], Nat.le_of_not_lt hover⟩
          · cases hir : parse_index_record file np.2 index with
            | error e => rw [hir] at h; simp [Bind.bind, Except.bind] at h
            | ok kr =>
              rw [hir] at h
              simp only [Bind.bind, Except.bind] at h
              cases hrec : InteriorIndexBTreePage.parse_cells_from file start_index size index qs with
              | error e => rw [hrec] at h; simp at h
              | ok cs => exact ih cs hrec p hm

theorem c4_witness :
    ∃ n pos', parse_varint F5 (0 + 10) = .ok (n, pos') ∧ 10 + n ≤ 32 :=
  (c4_overflow_check_only_on_index_cells F5 0 32 indexI).1 [10]
    [⟨"a", Value.int 7⟩] rfl 10 (by simp)

/-- C4 counterexample: a leaf-table cell declaring a 100-byte payload on a
32-byte page is decoded without any overflow error — the claim's "leaf-table
cells alike" part is false. -/
theorem c4_counterexample :
    parse_varint F4 52 = .ok (100, 53) ∧ 20 + 100 > 32 ∧
    read_table_rows F4 tableT 1 = .ok [⟨1, [("a", Value.null)]⟩] :=
  ⟨rfl, by decide, rfl⟩

/-- C2 (amended): `.dbinfo` prints the number of schema rows whose
`tbl_name` differs from `b"sqlite_sequence"`, with no condition on the
`type` column — index rows are counted too. -/
theorem c2_dbinfo_counts_all_non_sequence_rows (file : DbFile) (fuel : Nat)
    (rows : List Record)
    (h : read_table_rows file SQLITE_SCHEMA_TABLE fuel = .ok rows)
    (hkeys : ∀ r ∈ rows, ("tbl_name" : String) ∈ r.column_names_to_values.map Prod.fst) :
    dbinfoCount file fuel = .ok ((rows.filter fun r =>
      match lookupVal r.column_names_to_values "tbl_name" with
      | some v => valueNeBytes v (strBytes "sqlite_sequence")
      | none => true).length) := by
  unfold dbinfoCount read_sqlite_schema_records
  rw [h]
  simp only [Bind.bind, Except.bind]
  rw [filterSchemaRows_eq rows hkeys]
  rfl

/-- The two sqlite_schema rows of fixture `F2`: a `table` row and an `index`
row, neither named `sqlite_sequence`. -/
def R2 : List Record :=
  [⟨1, [("type", Value.bytes [116, 97, 98, 108, 101]), ("name", Value.bytes [116]),
    ("tbl_name", Value.bytes [116]), ("rootpage", Value.int 2), ("sql", Value.null)]⟩,
   ⟨2, [("type", Value.bytes [105, 110, 100, 101, 120]), ("name", Value.bytes [105]),
    ("tbl_name", Value.bytes [116]), ("rootpage", Value.int 3), ("sql", Value.null)]⟩]

theorem c2_witness :
    dbinfoCount F2 3 = .ok ((R2.filter fun r =>
      match lookupVal r.column_names_to_values "tbl_name" with
      | some v => valueNeBytes v (strBytes "sqlite_sequence")
      | none => true).length) :=
  c2_dbinfo_counts_all_non_sequence_rows F2 3 R2 rfl (by decide)

/-- C2 counterexample: on fixture `F2` (one table row, one index row) the
code counts 2, while the claim's count — rows with `type = "table"` only —
is 1. -/
theorem c2_counterexample :
    dbinfoCount F2 3 = .ok 2 ∧ claimTableCount F2 3 = .ok 1 ∧
    dbinfoCount F2 3 ≠ claimTableCount F2 3 :=
  ⟨rfl, rfl, fun hc => by
    rw [show dbinfoCount F2 3 = .ok 2 from rfl,
      show claimTableCount F2 3 = .ok 1 from rfl] at hc
    exact absurd (Except.ok.inj hc) (by decide)⟩

/-- C8 (amended): the column list is derived by taking the text after the
first `(` truncated at the next `(` or `)`, splitting on every comma
(nested parentheses are not respected), taking the first whitespace-separated
token as name and the rest as declared type, and marking primary key by the
case-insensitive substring `primary key`. -/
theorem c8_columns_split_on_every_comma (t : Table) :
    Table.columns t = columnsAmended t := by
  simp only [Table.columns, columnsAmended]
  rw [splitChar_get1]
  by_cases hm : ('(' : Char) ∈ stripL t.create_table_sql.toList
  · rw [if_pos hm, if_pos hm]
    simp only []
    rw [splitChar_headD, takeWhile_comp]
  · rw [if_neg hm, if_neg hm]

/-- C8 counterexample: on `CREATE TABLE d (a DECIMAL(10,2), b text)` the code
derives a single column `a DECIMAL` (the body stops at the nested `(` and the
second column is lost), while the claim's top-level split derives the two
declared columns. -/
theorem c8_counterexample :
    Table.columns ⟨"d", 2, "CREATE TABLE d (a DECIMAL(10,2), b text)"⟩ =
      .ok [⟨"a", "DECIMAL", false⟩] ∧
    columnsClaim ⟨"d", 2, "CREATE TABLE d (a DECIMAL(10,2), b text)"⟩ =
      .ok [⟨"a", "DECIMAL(10,2)", false⟩, ⟨"b", "text", false⟩] ∧
    ([⟨"a", "DECIMAL", false⟩] : List Column) ≠
      [⟨"a", "DECIMAL(10,2)", false⟩, ⟨"b", "text", false⟩] :=
  ⟨rfl, rfl, by decide⟩

/-- C1: on a well-formed table B-tree the full scan succeeds, yielding the
leaf records in cell-pointer order within each leaf and in left-to-right
subtree order across pages, so the sequence of yielded rowids is strictly
increasing. -/
theorem c1_full_scan_rowids_strictly_increasing (file : DbFile) (table : Table)
    (fuel : Nat)
    (h : treeWF file table fuel table.root_page none none = true) :
    ∃ rs, read_table_rows file table fuel = .ok rs ∧
      List.Pairwise (fun a b => a < b) (rs.map Record.rowid) := by
  obtain ⟨rs, hok, hs⟩ := collect_sorted file table fuel table.root_page none none h
  exact ⟨rs, hok, sorted_pairwise _ none hs⟩

theorem c1_witness :
    treeWF F1 tableT 2 tableT.root_page none none = true ∧
    ∃ rs, read_table_rows F1 tableT 2 = .ok rs ∧
      List.Pairwise (fun a b => a < b) (rs.map Record.rowid) :=
  ⟨by decide, c1_full_scan_rowids_strictly_increasing F1 tableT 2 (by decide)⟩
